import Mathlib

/-!
Verification of the inventory simulation and optimization pipeline in
`Holts_Winter_Monte_Forecast_Opt.py`.

The module-level constants of the script (`LEAD_TIME`, `HOLD_COST`,
`ORDER_COST`, `n_days`) are gathered in a `Params` record; `run_one`,
the grid filter/sort stage and the demand-path sampler are translated
directly from the source.  Exact rational arithmetic stands in for
Python floats; the IEEE NaN produced by `stockouts / demand.sum()` when
the total demand is zero is modelled as `Option.none`, and the
`ZeroDivisionError` raised by `hold_cost / n_days` when `n_days = 0` is
modelled by `run_one` returning `none`.
-/

namespace HWForecast

/-- Module-level constants of the script: `LEAD_TIME`, `HOLD_COST`,
`ORDER_COST` and `n_days = len(df)`. -/
structure Params where
  leadTime : ℤ
  holdCost : ℚ
  orderCost : ℚ
  n_days : ℕ
deriving Repr, DecidableEq

/-- The mutable state of one `run_one` call: `stock`, `stockouts`,
`hold_cost`, `order_count` and the `deliveries` list of days-until-arrival
counters (one entry per outstanding purchase order, each of size `Q`). -/
structure SimState where
  stock : ℤ
  stockouts : ℤ
  hold_cost : ℚ
  order_count : ℕ
  deliveries : List ℤ
deriving Repr, DecidableEq

/-- Phase 1 of a simulated day (source lines 96-101): if the pipeline is
non-empty, decrement every counter; if any counter reached 0, credit `Q`
units per arrival and drop the non-positive counters. -/
def advance (Q : ℤ) (stock : ℤ) (deliveries : List ℤ) : ℤ × List ℤ :=
  if deliveries = [] then (stock, deliveries)
  else
    let dec := deliveries.map (fun t => t - 1)
    let arrived := dec.filter (fun t => decide (t = 0))
    if arrived = [] then (stock, dec)
    else (stock + Q * (arrived.length : ℤ), dec.filter (fun t => decide (0 < t)))

/-- One simulated day of `run_one` (source lines 94-114): advance the
pipeline, sell `min(stock, d)`, accumulate stockout units and holding
cost on post-sale stock, then place one order of size `Q` if the
inventory position is at or below `R`. -/
def step (p : Params) (R Q : ℤ) (s : SimState) (d : ℕ) : SimState :=
  let a := advance Q s.stock s.deliveries
  let stock1 := a.1
  let dels1 := a.2
  let sold : ℤ := min stock1 (d : ℤ)
  let stock2 := stock1 - sold
  let stockouts2 := s.stockouts + ((d : ℤ) - sold)
  let hold2 := s.hold_cost + (stock2 : ℚ) * p.holdCost
  let ip := stock2 + Q * (dels1.length : ℤ)
  if ip ≤ R then
    { stock := stock2, stockouts := stockouts2, hold_cost := hold2,
      order_count := s.order_count + 1, deliveries := dels1 ++ [p.leadTime] }
  else
    { stock := stock2, stockouts := stockouts2, hold_cost := hold2,
      order_count := s.order_count, deliveries := dels1 }

/-- Initial simulator state (source lines 88-92): `stock = R + Q`, all
counters zero, empty pipeline. -/
def initState (R Q : ℤ) : SimState :=
  { stock := R + Q, stockouts := 0, hold_cost := 0, order_count := 0, deliveries := [] }

/-- The state after the daily loop of `run_one` over the whole demand path. -/
def runState (p : Params) (demand : List ℕ) (R Q : ℤ) : SimState :=
  demand.foldl (step p R Q) (initState R Q)

/-- The units sold on each day of the run (`sold = min(stock, d)` after
the pipeline advance), recorded for the conservation property. -/
def soldSeq (p : Params) (R Q : ℤ) : SimState → List ℕ → List ℤ
  | _, [] => []
  | s, d :: ds =>
      min (advance Q s.stock s.deliveries).1 (d : ℤ) :: soldSeq p R Q (step p R Q s d) ds

/-- The KPI record returned by `run_one` (source line 121).
`service_level = none` models the IEEE NaN that `1 - stockouts / demand.sum()`
produces when the total demand is 0 (NumPy emits a warning, not an
exception, and the run returns normally). -/
structure KPI where
  service_level : Option ℚ
  stockouts : ℤ
  avg_hold_cost : ℚ
  order_count : ℕ
  avg_order_cost : ℚ
  avg_total_cost : ℚ
deriving Repr, DecidableEq

/-- `run_one` (source lines 87-121).  Returns `none` when `n_days = 0`,
modelling the `ZeroDivisionError` raised by the float division
`hold_cost / n_days`; note this error occurs after the (empty) daily
loop, during KPI computation. -/
def run_one (p : Params) (demand : List ℕ) (R Q : ℤ) : Option KPI :=
  let s := runState p demand R Q
  if p.n_days = 0 then none
  else
    let total : ℤ := (demand.sum : ℤ)
    let service : Option ℚ := if total = 0 then none else some (1 - (s.stockouts : ℚ) / (total : ℚ))
    let avg_hold : ℚ := s.hold_cost / (p.n_days : ℚ)
    let avg_order : ℚ := ((s.order_count : ℚ) * p.orderCost) / (p.n_days : ℚ)
    some { service_level := service, stockouts := s.stockouts,
           avg_hold_cost := avg_hold, order_count := s.order_count,
           avg_order_cost := avg_order, avg_total_cost := avg_hold + avg_order }

/-- One simulated day exactly as the specification words it: decrement
`daysRemaining` of every in-transit shipment, remove each shipment
reaching 0 adding `Q` to on-hand for each; serve `sold = min(onHand, d)`,
accumulate the shortfall and `onHand * holdCost` post-sale; then place at
most one order of size `Q` when `onHand + Q * count ≤ R`. -/
def specStep (p : Params) (R Q : ℤ) (s : SimState) (d : ℕ) : SimState :=
  let dec := s.deliveries.map (fun t => t - 1)
  let stock1 := s.stock + Q * ((dec.filter (fun t => decide (t = 0))).length : ℤ)
  let dels1 := dec.filter (fun t => decide (t ≠ 0))
  let sold : ℤ := min stock1 (d : ℤ)
  let stock2 := stock1 - sold
  let stockouts2 := s.stockouts + ((d : ℤ) - sold)
  let hold2 := s.hold_cost + (stock2 : ℚ) * p.holdCost
  if stock2 + Q * (dels1.length : ℤ) ≤ R then
    { stock := stock2, stockouts := stockouts2, hold_cost := hold2,
      order_count := s.order_count + 1, deliveries := dels1 ++ [p.leadTime] }
  else
    { stock := stock2, stockouts := stockouts2, hold_cost := hold2,
      order_count := s.order_count, deliveries := dels1 }

/-- The run as the specification describes it: start from
`onHand = R + Q`, empty in-transit list, zero counters, and fold the
spec-worded day update. -/
def specRun (p : Params) (demand : List ℕ) (R Q : ℤ) : SimState :=
  demand.foldl (specStep p R Q)
    { stock := R + Q, stockouts := 0, hold_cost := 0, order_count := 0, deliveries := [] }

/-- The reachable-state invariant of the pipeline list: counters strictly
increase along the list (oldest order first) and each lies in `[1, lt]`. -/
def DelsOK (lt : ℤ) (l : List ℤ) : Prop :=
  l.Sorted (· < ·) ∧ ∀ t ∈ l, 1 ≤ t ∧ t ≤ lt

/-- One row of the grid-search table (source line 192). -/
structure GridCandidate where
  R : ℤ
  Q : ℤ
  service_lvl : ℚ
  avg_hold : ℚ
  avg_order : ℚ
  avg_total : ℚ
deriving Repr, DecidableEq, Inhabited

/-- The comparator realised by
`sort_values(["avg_total_$","service_lvl"], ascending=[True, False])`:
ascending total cost, ties broken by descending service level. -/
def candLe (a b : GridCandidate) : Bool :=
  decide (a.avg_total < b.avg_total) ||
    (decide (a.avg_total = b.avg_total) && decide (b.service_lvl ≤ a.service_lvl))

/-- `candidates = grid_df[grid_df["service_lvl"] >= target_service]`
(source line 201). -/
def candidates (τ : ℚ) (rows : List GridCandidate) : List GridCandidate :=
  rows.filter (fun g => decide (τ ≤ g.service_lvl))

/-- `sorted_cands` (source line 209): the filtered rows sorted by
ascending total cost, tie-broken by descending service level. -/
def sorted_cands (τ : ℚ) (rows : List GridCandidate) : List GridCandidate :=
  (candidates τ rows).mergeSort candLe

/-- `best = sorted_cands.iloc[0]` (source line 210). -/
def best (τ : ℚ) (rows : List GridCandidate) : GridCandidate :=
  (sorted_cands τ rows).headI

/-- `topN = sorted_cands.head(TOP_N)` (source line 214). -/
def topN (N : ℕ) (τ : ℚ) (rows : List GridCandidate) : List GridCandidate :=
  (sorted_cands τ rows).take N

/-- Outcome of the grid-search stage: either the no-feasible-policy exit
(source lines 204-206, message plus `SystemExit(0)`) or the selected best
row together with the reported top-N rows. -/
inductive GridOutcome
  | noFeasible
  | result (best : GridCandidate) (topN : List GridCandidate)
deriving Repr, DecidableEq

/-- The branch structure of source lines 201-214: filter, exit when no
candidate survives, otherwise sort and select. -/
def gridOutcome (τ : ℚ) (N : ℕ) (rows : List GridCandidate) : GridOutcome :=
  if candidates τ rows = [] then GridOutcome.noFeasible
  else GridOutcome.result (best τ rows) (topN N τ rows)

/-- `R_grid = range(R-20, R+20)` (source line 168). -/
def R_grid (R : ℤ) : List ℤ :=
  (List.range 40).map (fun i => R - 20 + (i : ℤ))

/-- `Q_grid = range(Q-20, Q+20)` (source line 169). -/
def Q_grid (Q : ℤ) : List ℤ :=
  (List.range 40).map (fun i => Q - 20 + (i : ℤ))

/-- One `service_total += service` update (source line 184): float
addition, so a NaN operand (modelled `none`) absorbs the result. -/
def addService (acc : Option ℚ) (k : KPI) : Option ℚ :=
  match acc, k.service_level with
  | some a, some s => some (a + s)
  | _, _ => none

/-- The grid-search running total of service levels over the runs of one
grid cell (source lines 177-184). -/
def service_total (ks : List KPI) : Option ℚ :=
  ks.foldl addService (some 0)

/-- NumPy `rint`: round to nearest integer, halves to even. -/
def rint (x : ℚ) : ℤ :=
  if x - ⌊x⌋ < 1/2 then ⌊x⌋
  else if 1/2 < x - ⌊x⌋ then ⌊x⌋ + 1
  else if Even ⌊x⌋ then ⌊x⌋ else ⌊x⌋ + 1

/-- One day of the demand-path sampler (source lines 137-138): the
Normal(mean, scale*mean) draw is written `mean + scale * mean * z` with
`z` a standard-normal draw; the code clips at 0 then rounds
(`np.rint(np.clip(raw, 0, None))`). -/
def sampleDay (scale mean z : ℚ) : ℤ :=
  rint (max (mean + scale * mean * z) 0)

/-- `demand_path` (source lines 137-138), with the per-day standard-normal
draws abstracted as the list `zs`. -/
def demand_path (means : List ℚ) (scale : ℚ) (zs : List ℚ) : List ℤ :=
  (means.zip zs).map (fun mz => sampleDay scale mz.1 mz.2)

theorem advance_eq_spec (Q stock : ℤ) (dels : List ℤ) (h : ∀ t ∈ dels, 1 ≤ t) :
    advance Q stock dels =
      (stock + Q * (((dels.map (fun t => t - 1)).filter (fun t => decide (t = 0))).length : ℤ),
        (dels.map (fun t => t - 1)).filter (fun t => decide (t ≠ 0))) := by
  unfold advance
  by_cases hd : dels = []
  · subst hd; simp
  · rw [if_neg hd]
    have hnn : ∀ t ∈ dels.map (fun t => t - 1), 0 ≤ t := by
      intro t ht
      rcases List.mem_map.mp ht with ⟨u, hu, rfl⟩
      have := h u hu
      omega
    by_cases ha : (dels.map (fun t => t - 1)).filter (fun t => decide (t = 0)) = []
    · rw [if_pos ha]
      have hall : ∀ t ∈ dels.map (fun t => t - 1), t ≠ 0 := by
        intro t ht h0
        have hmem : t ∈ (dels.map (fun t => t - 1)).filter (fun t => decide (t = 0)) :=
          List.mem_filter.mpr ⟨ht, by simp [h0]⟩
        rw [ha] at hmem
        simp at hmem
      have hfe : (dels.map (fun t => t - 1)).filter (fun t => decide (t ≠ 0))
          = dels.map (fun t => t - 1) := by
        apply List.filter_eq_self.mpr
        intro a hamem
        simp [hall a hamem]
      rw [ha, hfe]
      simp
    · rw [if_neg ha]
      have hfc : (dels.map (fun t => t - 1)).filter (fun t => decide (0 < t))
          = (dels.map (fun t => t - 1)).filter (fun t => decide (t ≠ 0)) := by
        apply List.filter_congr
        intro a hamem
        have := hnn a hamem
        simp only [decide_eq_decide]
        omega
      rw [hfc]

theorem step_eq_specStep (p : Params) (R Q : ℤ) (s : SimState) (d : ℕ)
    (h : ∀ t ∈ s.deliveries, 1 ≤ t) :
    step p R Q s d = specStep p R Q s d := by
  simp only [step, specStep, advance_eq_spec Q s.stock s.deliveries h]

theorem advance_dels_ok (Q stock lt : ℤ) (dels : List ℤ)
    (hs : dels.Sorted (· < ·)) (hb : ∀ t ∈ dels, 1 ≤ t ∧ t ≤ lt) :
    (advance Q stock dels).2.Sorted (· < ·)
      ∧ ∀ t ∈ (advance Q stock dels).2, 1 ≤ t ∧ t ≤ lt - 1 := by
  rw [advance_eq_spec Q stock dels (fun t ht => (hb t ht).1)]
  constructor
  · apply List.Pairwise.filter
    rw [List.pairwise_map]
    exact hs.imp (by omega)
  · intro t ht
    rcases List.mem_filter.mp ht with ⟨hmem, hne⟩
    rcases List.mem_map.mp hmem with ⟨u, hu, rfl⟩
    have := hb u hu
    have : ¬ (u - 1 = 0) := by simpa using hne
    have := hb u hu
    omega

theorem step_deliveries_ok (p : Params) (R Q : ℤ) (s : SimState) (d : ℕ)
    (hlt : 1 ≤ p.leadTime) (h : DelsOK p.leadTime s.deliveries) :
    DelsOK p.leadTime ((step p R Q s d).deliveries) := by
  obtain ⟨hs, hb⟩ := h
  obtain ⟨hs1, hb1⟩ := advance_dels_ok Q s.stock p.leadTime s.deliveries hs hb
  simp only [step]
  split
  · dsimp only
    refine ⟨?_, ?_⟩
    · refine List.pairwise_append.mpr ⟨hs1, List.pairwise_singleton _ _, ?_⟩
      intro a ha b hbmem
      have := hb1 a ha
      have : b = p.leadTime := by simpa using hbmem
      omega
    · intro t ht
      rcases List.mem_append.mp ht with h1 | h2
      · have := hb1 t h1
        omega
      · have : t = p.leadTime := by simpa using h2
        omega
  · dsimp only
    refine ⟨hs1, fun t ht => ?_⟩
    have := hb1 t ht
    omega

theorem foldl_step_dels_ok (p : Params) (R Q : ℤ) (hlt : 1 ≤ p.leadTime)
    (demand : List ℕ) (s : SimState) (h : DelsOK p.leadTime s.deliveries) :
    DelsOK p.leadTime ((demand.foldl (step p R Q) s).deliveries) := by
  induction demand generalizing s with
  | nil => exact h
  | cons d ds ih =>
      exact ih (step p R Q s d) (step_deliveries_ok p R Q s d hlt h)

theorem delsOK_length (lt : ℤ) (l : List ℤ) (hlt : 0 ≤ lt) (h : DelsOK lt l) :
    (l.length : ℤ) ≤ lt := by
  obtain ⟨hs, hb⟩ := h
  have hnd : l.Nodup := hs.nodup
  have hsub : l.toFinset ⊆ Finset.Icc 1 lt := by
    intro t ht
    rcases hb t (List.mem_toFinset.mp ht) with ⟨h1, h2⟩
    exact Finset.mem_Icc.mpr ⟨h1, h2⟩
  have hcard := Finset.card_le_card hsub
  rw [List.toFinset_card_of_nodup hnd, Int.card_Icc] at hcard
  omega

theorem delsOK_init (lt : ℤ) (R Q : ℤ) : DelsOK lt ((initState R Q).deliveries) :=
  ⟨List.sorted_nil, by simp [initState]⟩

/-- Claim C1: starting from `onHand = R + Q` with an empty in-transit list and
zero counters, `run_one`'s daily loop applies exactly the spec's sequence:
decrement every in-transit counter, deliver the ones reaching 0 adding `Q`
each, serve `min(onHand, demand)`, accumulate shortfall and post-sale holding
cost, then place at most one order of size `Q` with `daysRemaining = leadTime`
when `onHand + Q * count ≤ R`. -/
theorem run_one_matches_spec_sequence (p : Params) (demand : List ℕ) (R Q : ℤ)
    (hQ : 0 < Q) (hlt : 1 ≤ p.leadTime) :
    runState p demand R Q = specRun p demand R Q := by
  unfold runState specRun
  have hinit : DelsOK p.leadTime ((initState R Q).deliveries) := delsOK_init _ R Q
  have key : ∀ (ds : List ℕ) (s : SimState), DelsOK p.leadTime s.deliveries →
      ds.foldl (step p R Q) s = ds.foldl (specStep p R Q) s := by
    intro ds
    induction ds with
    | nil => intro s _; rfl
    | cons d ds ih =>
        intro s h
        simp only [List.foldl_cons]
        rw [← step_eq_specStep p R Q s d (fun t ht => (h.2 t ht).1)]
        exact ih (step p R Q s d) (step_deliveries_ok p R Q s d hlt h)
  exact key demand (initState R Q) hinit

/-- Witness for C1 at a concrete input. -/
theorem run_one_matches_spec_sequence_witness :
    runState ⟨5, 1, 50, 5⟩ [10, 10, 10, 10, 10] 40 20
      = specRun ⟨5, 1, 50, 5⟩ [10, 10, 10, 10, 10] 40 20 :=
  run_one_matches_spec_sequence ⟨5, 1, 50, 5⟩ [10, 10, 10, 10, 10] 40 20
    (by decide) (by decide)

/-- Claim C10: at the end of every simulated day, every in-transit counter
lies in `[1, leadTime]` and the number of outstanding orders never exceeds
`leadTime`. -/
theorem deliveries_bounds_invariant (p : Params) (R Q : ℤ) (hlt : 1 ≤ p.leadTime)
    (demand : List ℕ) (n : ℕ) :
    (∀ t ∈ (List.foldl (step p R Q) (initState R Q) (demand.take n)).deliveries,
        1 ≤ t ∧ t ≤ p.leadTime)
    ∧ (((List.foldl (step p R Q) (initState R Q) (demand.take n)).deliveries.length : ℤ)
        ≤ p.leadTime) := by
  have h := foldl_step_dels_ok p R Q hlt (demand.take n) (initState R Q) (delsOK_init _ R Q)
  exact ⟨h.2, delsOK_length _ _ (by omega) h⟩

/-- Witness for C10 at a concrete input. -/
theorem deliveries_bounds_invariant_witness :
    (∀ t ∈ (List.foldl (step ⟨5, 1, 50, 5⟩ 40 20) (initState 40 20)
        (([10, 10, 10, 10, 10] : List ℕ).take 4)).deliveries,
        1 ≤ t ∧ t ≤ (5 : ℤ))
    ∧ (((List.foldl (step ⟨5, 1, 50, 5⟩ 40 20) (initState 40 20)
        (([10, 10, 10, 10, 10] : List ℕ).take 4)).deliveries.length : ℤ) ≤ 5) :=
  deliveries_bounds_invariant ⟨5, 1, 50, 5⟩ 40 20 (by decide) [10, 10, 10, 10, 10] 4

theorem step_stock (p : Params) (R Q : ℤ) (s : SimState) (d : ℕ) :
    (step p R Q s d).stock
      = (advance Q s.stock s.deliveries).1 - min (advance Q s.stock s.deliveries).1 (d : ℤ) := by
  simp only [step]
  split <;> rfl

theorem step_stockouts (p : Params) (R Q : ℤ) (s : SimState) (d : ℕ) :
    (step p R Q s d).stockouts
      = s.stockouts + ((d : ℤ) - min (advance Q s.stock s.deliveries).1 (d : ℤ)) := by
  simp only [step]
  split <;> rfl

theorem stockouts_plus_sold (p : Params) (R Q : ℤ) (demand : List ℕ) (s : SimState) :
    (demand.foldl (step p R Q) s).stockouts + (soldSeq p R Q s demand).sum
      = s.stockouts + (demand.sum : ℤ) := by
  induction demand generalizing s with
  | nil => simp [soldSeq]
  | cons d ds ih =>
      simp only [List.foldl_cons, soldSeq, List.sum_cons]
      have hrec := ih (step p R Q s d)
      have hst := step_stockouts p R Q s d
      push_cast
      push_cast at hrec
      omega

theorem stock_nonneg_step (p : Params) (R Q : ℤ) (s : SimState) (d : ℕ) :
    0 ≤ (step p R Q s d).stock := by
  rw [step_stock]
  have := min_le_left (advance Q s.stock s.deliveries).1 ((d : ℕ) : ℤ)
  omega

theorem stock_nonneg_foldl (p : Params) (R Q : ℤ) (demand : List ℕ) (s : SimState)
    (h : 0 ≤ s.stock) :
    0 ≤ (demand.foldl (step p R Q) s).stock := by
  induction demand generalizing s with
  | nil => exact h
  | cons d ds ih => exact ih (step p R Q s d) (stock_nonneg_step p R Q s d)

/-- Claim C2: for every demand path and every policy with `R ≥ 0`, `Q > 0`,
`leadTime ≥ 1`, the final `cumulativeStockoutUnits` plus the sum of the daily
`sold` amounts equals the total demand, and on-hand stock is non-negative
after every simulated day (including the initial state). -/
theorem conservation_and_stock_nonneg (p : Params) (demand : List ℕ) (R Q : ℤ)
    (hR : 0 ≤ R) (hQ : 0 < Q) (hlt : 1 ≤ p.leadTime) :
    (runState p demand R Q).stockouts + (soldSeq p R Q (initState R Q) demand).sum
        = (demand.sum : ℤ)
    ∧ ∀ n : ℕ, 0 ≤ (List.foldl (step p R Q) (initState R Q) (demand.take n)).stock := by
  constructor
  · have h := stockouts_plus_sold p R Q demand (initState R Q)
    simpa [runState, initState] using h
  · intro n
    apply stock_nonneg_foldl
    simp only [initState]
    omega

/-- Witness for C2 at a concrete input. -/
theorem conservation_and_stock_nonneg_witness :
    (runState ⟨5, 1, 50, 3⟩ [3, 9, 1] 2 4).stockouts
        + (soldSeq ⟨5, 1, 50, 3⟩ 2 4 (initState 2 4) [3, 9, 1]).sum
        = ((([3, 9, 1] : List ℕ).sum : ℤ))
    ∧ ∀ n : ℕ, 0 ≤ (List.foldl (step ⟨5, 1, 50, 3⟩ 2 4) (initState 2 4)
        (([3, 9, 1] : List ℕ).take n)).stock :=
  conservation_and_stock_nonneg ⟨5, 1, 50, 3⟩ [3, 9, 1] 2 4
    (by decide) (by decide) (by decide)

/-- Claim C3: for a demand path with positive total demand whose length is the
simulation horizon `n_days`, `run_one` returns
`serviceLevel = 1 - stockouts / sum(demand)`,
`avgHoldCost = cumulativeHoldCost / n_days`,
`avgOrderCost = ordersPlaced * orderCost / n_days`, and
`avgTotalCost = avgHoldCost + avgOrderCost`. -/
theorem run_one_kpi_formulas (p : Params) (demand : List ℕ) (R Q : ℤ)
    (hsum : 0 < demand.sum) (hlen : demand.length = p.n_days) :
    run_one p demand R Q = some
      { service_level :=
          some (1 - ((runState p demand R Q).stockouts : ℚ) / (demand.sum : ℚ)),
        stockouts := (runState p demand R Q).stockouts,
        avg_hold_cost := (runState p demand R Q).hold_cost / (demand.length : ℚ),
        order_count := (runState p demand R Q).order_count,
        avg_order_cost :=
          ((runState p demand R Q).order_count : ℚ) * p.orderCost / (demand.length : ℚ),
        avg_total_cost :=
          (runState p demand R Q).hold_cost / (demand.length : ℚ)
            + ((runState p demand R Q).order_count : ℚ) * p.orderCost / (demand.length : ℚ) } := by
  have hne : demand.length ≠ 0 := by
    intro h
    rw [List.length_eq_zero] at h
    subst h
    simp at hsum
  have hnd : p.n_days ≠ 0 := by omega
  have htot : ((demand.sum : ℕ) : ℤ) ≠ 0 := by
    have : (0 : ℤ) < ((demand.sum : ℕ) : ℤ) := by exact_mod_cast hsum
    omega
  have hcast : (((demand.sum : ℤ)) : ℚ) = ((demand.sum : ℚ)) := Int.cast_natCast _
  simp only [run_one, if_neg hnd, if_neg htot]
  rw [← hlen, hcast]

/-- Witness for C3 at a concrete input. -/
theorem run_one_kpi_formulas_witness :
    run_one ⟨5, 1, 50, 2⟩ [1, 2] 0 0 = some
      { service_level :=
          some (1 - ((runState ⟨5, 1, 50, 2⟩ [1, 2] 0 0).stockouts : ℚ)
            / ((([1, 2] : List ℕ).sum : ℚ))),
        stockouts := (runState ⟨5, 1, 50, 2⟩ [1, 2] 0 0).stockouts,
        avg_hold_cost := (runState ⟨5, 1, 50, 2⟩ [1, 2] 0 0).hold_cost
          / ((([1, 2] : List ℕ).length : ℚ)),
        order_count := (runState ⟨5, 1, 50, 2⟩ [1, 2] 0 0).order_count,
        avg_order_cost := ((runState ⟨5, 1, 50, 2⟩ [1, 2] 0 0).order_count : ℚ) * 50
          / ((([1, 2] : List ℕ).length : ℚ)),
        avg_total_cost := (runState ⟨5, 1, 50, 2⟩ [1, 2] 0 0).hold_cost
            / ((([1, 2] : List ℕ).length : ℚ))
          + ((runState ⟨5, 1, 50, 2⟩ [1, 2] 0 0).order_count : ℚ) * 50
            / ((([1, 2] : List ℕ).length : ℚ)) } :=
  run_one_kpi_formulas ⟨5, 1, 50, 2⟩ [1, 2] 0 0 (by decide) (by decide)

theorem candLe_iff (a b : GridCandidate) :
    candLe a b = true
      ↔ (a.avg_total < b.avg_total
          ∨ (a.avg_total = b.avg_total ∧ b.service_lvl ≤ a.service_lvl)) := by
  simp [candLe, Bool.or_eq_true, Bool.and_eq_true, decide_eq_true_iff]

theorem candLe_trans (a b c : GridCandidate) :
    candLe a b → candLe b c → candLe a c := by
  intro hab hbc
  rw [candLe_iff] at hab hbc ⊢
  rcases hab with h1 | ⟨h1, h2⟩ <;> rcases hbc with h3 | ⟨h3, h4⟩
  · exact Or.inl (h1.trans h3)
  · exact Or.inl (h3 ▸ h1)
  · exact Or.inl (h1 ▸ h3)
  · exact Or.inr ⟨h1.trans h3, h4.trans h2⟩

theorem candLe_total (a b : GridCandidate) : candLe a b || candLe b a := by
  rw [Bool.or_eq_true, candLe_iff, candLe_iff]
  rcases lt_trichotomy a.avg_total b.avg_total with h | h | h
  · exact Or.inl (Or.inl h)
  · rcases le_total b.service_lvl a.service_lvl with hs | hs
    · exact Or.inl (Or.inr ⟨h, hs⟩)
    · exact Or.inr (Or.inr ⟨h.symm, hs⟩)
  · exact Or.inr (Or.inl h)

/-- Claim C4: the filtered output of the optimizer contains exactly the grid
rows with `meanServiceLevel ≥ τ`; `sorted_cands` is a permutation of those
survivors ordered by ascending mean total cost with ties broken by descending
mean service level; `best` is its first row and the reported top-N is its
first N rows. -/
theorem grid_filter_and_ranking (τ : ℚ) (N : ℕ) (rows : List GridCandidate) :
    (∀ g, g ∈ candidates τ rows ↔ g ∈ rows ∧ τ ≤ g.service_lvl)
    ∧ (sorted_cands τ rows).Perm (candidates τ rows)
    ∧ (sorted_cands τ rows).Pairwise
        (fun a b => a.avg_total < b.avg_total
          ∨ (a.avg_total = b.avg_total ∧ b.service_lvl ≤ a.service_lvl))
    ∧ best τ rows = (sorted_cands τ rows).headI
    ∧ topN N τ rows = (sorted_cands τ rows).take N := by
  refine ⟨?_, ?_, ?_, rfl, rfl⟩
  · intro g
    simp [candidates, List.mem_filter, decide_eq_true_iff]
  · exact List.mergeSort_perm _ _
  · have h := @List.sorted_mergeSort GridCandidate candLe candLe_trans candLe_total (candidates τ rows)
    exact h.imp (fun hab => (candLe_iff _ _).mp hab)

/-- Claim C7: the grid stage signals the no-feasible-policy outcome exactly
when no grid row reaches the target service level, and otherwise produces the
ranked best row and top-N table (so validation never proceeds with an
undefined best policy). -/
theorem grid_no_feasible_outcome (τ : ℚ) (N : ℕ) (rows : List GridCandidate) :
    (gridOutcome τ N rows = GridOutcome.noFeasible ↔ ∀ g ∈ rows, g.service_lvl < τ)
    ∧ ((∃ g ∈ rows, τ ≤ g.service_lvl) →
        gridOutcome τ N rows = GridOutcome.result (best τ rows) (topN N τ rows)) := by
  have hempty : candidates τ rows = [] ↔ ∀ g ∈ rows, g.service_lvl < τ := by
    simp [candidates, List.filter_eq_nil_iff, decide_eq_true_iff]
  by_cases hc : candidates τ rows = []
  · refine ⟨⟨fun _ => hempty.mp hc, fun _ => by simp [gridOutcome, hc]⟩, fun hex => ?_⟩
    exfalso
    obtain ⟨g, hg, hτ⟩ := hex
    have hmem : g ∈ candidates τ rows := List.mem_filter.mpr ⟨hg, by simp [hτ]⟩
    rw [hc] at hmem
    simp at hmem
  · have hres : gridOutcome τ N rows = GridOutcome.result (best τ rows) (topN N τ rows) := by
      simp [gridOutcome, hc]
    refine ⟨⟨fun h => ?_, fun hall => absurd (hempty.mpr hall) hc⟩, fun _ => hres⟩
    rw [hres] at h
    exact absurd h (by simp)

/-- Witness for C7 at concrete inputs: an empty table yields the
no-feasible-policy outcome. -/
theorem grid_no_feasible_outcome_witness :
    gridOutcome 1 3 [] = GridOutcome.noFeasible :=
  (grid_no_feasible_outcome 1 3 []).1.mpr (by simp)

theorem rint_ge_floor (x : ℚ) : ⌊x⌋ ≤ rint x := by
  unfold rint
  split
  · exact le_refl _
  · split
    · omega
    · split <;> omega

theorem rint_le_floor_add_one (x : ℚ) : rint x ≤ ⌊x⌋ + 1 := by
  unfold rint
  split
  · omega
  · split
    · exact le_refl _
    · split <;> omega

theorem rint_nonneg_of_nonneg (x : ℚ) (h : 0 ≤ x) : 0 ≤ rint x := by
  have h1 : (0 : ℤ) ≤ ⌊x⌋ := Int.floor_nonneg.mpr h
  have h2 := rint_ge_floor x
  omega

theorem rint_nonpos_of_neg (x : ℚ) (h : x < 0) : rint x ≤ 0 := by
  have h1 : ⌊x⌋ < 0 := Int.floor_lt.mpr (by simpa using h)
  have h2 := rint_le_floor_add_one x
  omega

theorem rint_zero : rint 0 = 0 := by
  unfold rint
  rw [Int.floor_zero]
  norm_num

theorem rint_max_zero (x : ℚ) : rint (max x 0) = max 0 (rint x) := by
  rcases le_or_lt 0 x with h | h
  · rw [max_eq_left h, max_eq_right (rint_nonneg_of_nonneg x h)]
  · rw [max_eq_right h.le, rint_zero, max_eq_left (rint_nonpos_of_neg x h)]

/-- Claim C9: every generated demand value is a non-negative integer equal to
`max(0, rint(x))` for that day's Normal draw `x = mean + scale * mean * z`;
with `residualScale = 0` the path degenerates to the per-day rounded means. -/
theorem demand_path_nonneg_integral (means zs : List ℚ) (scale : ℚ) (hs : 0 ≤ scale) :
    (∀ v ∈ demand_path means scale zs, 0 ≤ v)
    ∧ demand_path means scale zs
        = (means.zip zs).map (fun mz => max 0 (rint (mz.1 + scale * mz.1 * mz.2)))
    ∧ ((∀ m ∈ means, 0 ≤ m) → zs.length = means.length →
        demand_path means 0 zs = means.map rint) := by
  refine ⟨?_, ?_, ?_⟩
  · intro v hv
    rcases List.mem_map.mp hv with ⟨mz, _, rfl⟩
    exact rint_nonneg_of_nonneg _ (le_max_right _ _)
  · apply List.map_congr_left
    intro mz _
    exact rint_max_zero _
  · intro hm hlen
    have h1 : demand_path means 0 zs = (means.zip zs).map (fun mz => rint mz.1) := by
      apply List.map_congr_left
      intro mz hmem
      have h0 : 0 ≤ mz.1 := hm mz.1 (List.of_mem_zip hmem).1
      have : mz.1 + 0 * mz.1 * mz.2 = mz.1 := by ring
      rw [sampleDay, this, max_eq_left h0]
    rw [h1, show (fun mz : ℚ × ℚ => rint mz.1) = rint ∘ Prod.fst from rfl, ← List.map_map,
      List.map_fst_zip]
    omega

/-- Witness for C9 at concrete inputs. -/
theorem demand_path_nonneg_integral_witness :
    (∀ v ∈ demand_path [3/2, 0, 5/2] (1/2) [1, -4, 0], 0 ≤ v)
    ∧ demand_path [3/2, 0, 5/2] (1/2) [1, -4, 0]
        = (([3/2, 0, 5/2] : List ℚ).zip ([1, -4, 0] : List ℚ)).map
            (fun mz => max 0 (rint (mz.1 + (1/2) * mz.1 * mz.2)))
    ∧ ((∀ m ∈ ([3/2, 0, 5/2] : List ℚ), 0 ≤ m) →
        ([1, -4, 0] : List ℚ).length = ([3/2, 0, 5/2] : List ℚ).length →
        demand_path [3/2, 0, 5/2] 0 [1, -4, 0] = ([3/2, 0, 5/2] : List ℚ).map rint) :=
  demand_path_nonneg_integral [3/2, 0, 5/2] [1, -4, 0] (1/2) (by norm_num)

/-- Counterexample to C5: the simulator runs to completion and returns an
ordinary KPI record when called with the non-positive order quantity
`Q = 0` (and `R = 0`), and the candidate grid around a baseline `Q = 20`
contains the non-positive order quantity `0`; no configuration check
rejects these parameters before simulation. -/
theorem run_one_accepts_nonpositive_Q :
    run_one ⟨5, 1, 50, 2⟩ [1, 2] 0 0 = some ⟨some 0, 3, 0, 2, 50, 50⟩
    ∧ (0 : ℤ) ∈ Q_grid 20 := by
  constructor
  · simp [run_one, runState, step, advance, initState, min_def]
  · decide

/-- Claim C5 as amended: the code performs no parameter validation at all.
`run_one` executes the simulation and returns a KPI record for every
parameter combination (any `Q ≤ 0`, any `leadTime`) whenever `n_days ≠ 0`,
and with an empty forecast series (`n_days = 0`) it fails only inside the
KPI computation after the (empty) daily loop - a `ZeroDivisionError`,
modelled as `none` - not with a fail-fast configuration error. -/
theorem no_configuration_validation (p : Params) (demand : List ℕ) (R Q : ℤ) :
    (p.n_days ≠ 0 → ∃ k, run_one p demand R Q = some k)
    ∧ (p.n_days = 0 → run_one p demand R Q = none) := by
  constructor
  · intro h
    simp only [run_one, if_neg h]
    split <;> exact ⟨_, rfl⟩
  · intro h
    simp [run_one, h]

/-- Witness for the amended C5 at concrete inputs. -/
theorem no_configuration_validation_witness :
    (∃ k, run_one ⟨5, 1, 50, 1⟩ [7] 0 (-3) = some k)
    ∧ run_one ⟨5, 1, 50, 0⟩ [] 0 (-3) = none :=
  ⟨(no_configuration_validation ⟨5, 1, 50, 1⟩ [7] 0 (-3)).1 (by decide),
    (no_configuration_validation ⟨5, 1, 50, 0⟩ [] 0 (-3)).2 rfl⟩

theorem foldl_addService_none (ks : List KPI) : ks.foldl addService none = none := by
  induction ks with
  | nil => rfl
  | cons k ks ih =>
      have h : addService none k = none := by
        unfold addService
        cases k.service_level <;> rfl
      rw [List.foldl_cons, h, ih]

theorem addService_absorbs (acc : Option ℚ) (k : KPI) (h : k.service_level = none) :
    addService acc k = none := by
  unfold addService
  rw [h]
  cases acc <;> rfl

/-- Counterexample to C6: on the zero-total-demand path `[0, 0]` the
simulator does not signal any distinct condition - it returns an ordinary
KPI record whose service level is the NaN of `0 / 0` (modelled `none`) -
and a grid-cell running total that includes such a run collapses to NaN
(`none`), corrupting the aggregated mean service level, while the same
total without that run is well defined. -/
theorem zero_demand_silently_corrupts_mean :
    run_one ⟨5, 1, 50, 2⟩ [0, 0] 1 1 = some ⟨none, 0, 2, 0, 0, 2⟩
    ∧ service_total [⟨none, 0, 2, 0, 0, 2⟩, ⟨some 1, 0, 2, 0, 0, 2⟩] = none
    ∧ service_total [⟨some 1, 0, 2, 0, 0, 2⟩] = some 1 := by
  refine ⟨?_, ?_, ?_⟩
  · simp [run_one, runState, step, advance, initState, min_def]
  · simp [service_total, addService]
  · simp [service_total, addService]

/-- Claim C6 as amended: for every demand path with zero total demand (and a
non-empty horizon), `run_one` returns normally with `serviceLevel` equal to
the undefined value NaN (modelled `none`) instead of signalling a distinct
degenerate-metric condition, and any grid-search service-level running total
containing such a run is itself NaN (modelled `none`), silently corrupting
that aggregated mean. -/
theorem zero_demand_service_nan (p : Params) (demand : List ℕ) (R Q : ℤ)
    (hz : demand.sum = 0) (hn : p.n_days ≠ 0) :
    (∃ k, run_one p demand R Q = some k ∧ k.service_level = none)
    ∧ ∀ ks : List KPI, (∃ k ∈ ks, k.service_level = none) → service_total ks = none := by
  constructor
  · have htot : ((demand.sum : ℕ) : ℤ) = 0 := by exact_mod_cast hz
    simp only [run_one, if_neg hn, htot, if_pos rfl]
    exact ⟨_, rfl, rfl⟩
  · intro ks
    unfold service_total
    generalize (some (0 : ℚ)) = acc
    induction ks generalizing acc with
    | nil => rintro ⟨k, hk, _⟩; simp at hk
    | cons k ks ih =>
        rintro ⟨k', hk', hnone⟩
        rcases List.mem_cons.mp hk' with rfl | hmem
        · rw [List.foldl_cons, addService_absorbs acc k' hnone, foldl_addService_none]
        · exact ih (addService acc k) ⟨k', hmem, hnone⟩

/-- Witness for the amended C6 at concrete inputs. -/
theorem zero_demand_service_nan_witness :
    (∃ k, run_one ⟨5, 1, 50, 2⟩ [0, 0] 1 1 = some k ∧ k.service_level = none)
    ∧ ∀ ks : List KPI, (∃ k ∈ ks, k.service_level = none) → service_total ks = none :=
  zero_demand_service_nan ⟨5, 1, 50, 2⟩ [0, 0] 1 1 (by decide) (by decide)

/-- Counterexample to C8: on the demand path `[10,10,10,10,10]` with
`leadTime = 5`, `R = 40`, `Q = 20` the simulator places two orders (at the
ends of days 2 and 4), not exactly one. -/
theorem concrete_scenario_two_orders :
    (run_one ⟨5, 1, 50, 5⟩ [10, 10, 10, 10, 10] 40 20).map KPI.order_count = some 2
    ∧ (run_one ⟨5, 1, 50, 5⟩ [10, 10, 10, 10, 10] 40 20).map KPI.order_count ≠ some 1 := by
  refine ⟨rfl, by decide⟩

/-- Claim C8 as amended: on the demand path `[10,10,10,10,10]` with
`leadTime = 5`, `R = 40`, `Q = 20`, the simulator starts with
`onHand = 60`, never stocks out (`stockoutUnits = 0`, `serviceLevel = 1`),
and places exactly two orders over the five-day horizon. -/
theorem concrete_scenario_kpis :
    (initState 40 20).stock = 60
    ∧ run_one ⟨5, 1, 50, 5⟩ [10, 10, 10, 10, 10] 40 20
        = some ⟨some 1, 0, 30, 2, 20, 50⟩ := by
  refine ⟨rfl, ?_⟩
  simp [run_one, runState, step, advance, initState, min_def]
  norm_num

end HWForecast
